import Mathlib

/-!
Verification development for the project-structure scanner of the `orka`
repository (`src/unnamed/part_001`, the `projectOverview` tool) and the
project-base reader (`src/src/mcp/utils/projectBase.ts`,
`src/src/mcp/schemas/projectBase.ts`).

The embedding is shallow: the Node.js filesystem is modelled as an inductive
tree of directory entries (`FSEntry`), `fs.readdir` results as
`Except String (List FSEntry)`, and the walker `scanDirectory` as a pure
function threading an explicit `ScanState` (the mutable `stats`/`acc` of the
source).  String-valued JavaScript primitives (`localeCompare`-based sorting,
`path.extname`, `String.prototype.includes`, ...) are modelled by executable
character-list functions; `localeCompare` ordering is modelled as code-unit
lexicographic order, which is the deterministic total order the spec calls
"lexicographic".  `path.join`/`path.resolve` are modelled as plain segment
concatenation without `..` normalisation (no claim depends on it).
-/

/-! ## Character and string helpers (models of the JS string primitives) -/

/-- Model of testing whether `pre` is a leading run of `l`
(JS `String.prototype.startsWith` on character lists). -/
def charsLeads : List Char → List Char → Bool
  | [], _ => true
  | _ :: _, [] => false
  | a :: as, b :: bs => a = b && charsLeads as bs

/-- Model of JS `String.prototype.includes`: `sub` occurs contiguously in `l`. -/
def charsContains (sub : List Char) : List Char → Bool
  | [] => charsLeads sub []
  | b :: bs => charsLeads sub (b :: bs) || charsContains sub bs

/-- JS `String.prototype.startsWith`. -/
def strStartsWith (s pre : String) : Bool := charsLeads pre.data s.data

/-- JS `String.prototype.includes`. -/
def strContains (s sub : String) : Bool := charsContains sub.data s.data

/-- Code-unit lexicographic order on character lists; model of the total order
induced by `localeCompare` (and of the default JS `Array.prototype.sort`
string comparison). -/
def charsLe : List Char → List Char → Bool
  | [], _ => true
  | _ :: _, [] => false
  | a :: as, b :: bs => if a = b then charsLe as bs else decide (a < b)

/-- Lexicographic `≤` on strings. -/
def strLe (a b : String) : Bool := charsLe a.data b.data

/-- JS `String.prototype.toLowerCase` (ASCII case folding, which is all the
source applies it to: extensions and package names). -/
def strToLower (s : String) : String := ⟨s.data.map Char.toLower⟩

/-- Drop the first `n` characters (JS `String.prototype.slice(n)` for `n ≥ 0`). -/
def strDrop (s : String) (n : Nat) : String := ⟨s.data.drop n⟩

/-- Whitespace recognised by the model of JS `String.prototype.trim`. -/
def isJsWhitespace (c : Char) : Bool :=
  c = ' ' || c = '\t' || c = '\n' || c = '\r'

/-- JS `String.prototype.trim`. -/
def strTrim (s : String) : String :=
  ⟨((s.data.dropWhile isJsWhitespace).reverse.dropWhile isJsWhitespace).reverse⟩

/-- Index of the last occurrence of `'.'`, scanning left to right. -/
def lastDotIndexAux : List Char → Nat → Option Nat → Option Nat
  | [], _, acc => acc
  | c :: rest, i, acc =>
      lastDotIndexAux rest (i + 1) (if c = '.' then some i else acc)

/-- Index of the last `'.'` in a character list, if any. -/
def lastDotIndex (cs : List Char) : Option Nat := lastDotIndexAux cs 0 none

/-- Model of Node `path.extname` applied to a base name: the substring from the
last dot, or `""` when there is no dot, the dot is the leading character
(dotfiles such as `.env`), or the name is `".."`. -/
def extname (name : String) : String :=
  if name = ".." then ""
  else
    match lastDotIndex name.data with
    | none => ""
    | some 0 => ""
    | some i => ⟨name.data.drop i⟩

/-- Model of posix `path.join` for one extra segment (no `..` normalisation;
the source only joins well-formed absolute prefixes with entry names). -/
def pathJoin (a b : String) : String := if a = "" then b else a ++ "/" ++ b

/-- Splits on `'/'`; helper for `pathBasename`. -/
def splitSlash : List Char → List Char → List (List Char)
  | [], acc => [acc.reverse]
  | c :: rest, acc =>
      if c = '/' then acc.reverse :: splitSlash rest [] else splitSlash rest (c :: acc)

/-- Model of posix `path.basename`: the last non-empty `/`-separated segment
(`""` for the root path, as in Node). -/
def pathBasename (p : String) : String :=
  match ((splitSlash p.data []).filter (fun seg => !seg.isEmpty)).getLast? with
  | none => ""
  | some seg => ⟨seg⟩

/-- Model of posix `path.isAbsolute`. -/
def pathIsAbsolute (p : String) : Bool := strStartsWith p "/"

/-- Model of `resolveAbsolutePath` from the source: absolute paths are kept,
relative ones are resolved against the current working directory
(`path.resolve` modelled as `pathJoin cwd`, without `..` normalisation). -/
def resolveAbsolutePath (cwd base : String) : String :=
  if pathIsAbsolute base then base else pathJoin cwd base

/-! ## Data model of the scanner (source lines 101-245 of part_001) -/

/-- `StructureNode.type` values. -/
inductive NodeType where
  | directory
  | file
  | symlink
deriving DecidableEq, Repr

/-- `StructureNode` from the source.  Optional JS fields (`extension?`,
`truncated?`, `children?`) are `Option`s: `none` is an absent key. -/
inductive StructureNode where
  | mk (name : String) (path : String) (type : NodeType) (extension : Option String)
      (truncated : Option Bool) (children : Option (List StructureNode))

/-- The `name` field of a `StructureNode`. -/
def StructureNode.name : StructureNode → String
  | ⟨n, _, _, _, _, _⟩ => n

/-- The `path` field of a `StructureNode`. -/
def StructureNode.pathOf : StructureNode → String
  | ⟨_, p, _, _, _, _⟩ => p

/-- The `type` field of a `StructureNode`. -/
def StructureNode.typeOf : StructureNode → NodeType
  | ⟨_, _, t, _, _, _⟩ => t

/-- The `extension` field of a `StructureNode`. -/
def StructureNode.extensionOf : StructureNode → Option String
  | ⟨_, _, _, e, _, _⟩ => e

/-- The `truncated` field of a `StructureNode`. -/
def StructureNode.truncatedOf : StructureNode → Option Bool
  | ⟨_, _, _, _, tr, _⟩ => tr

/-- The `children` field of a `StructureNode`. -/
def StructureNode.childrenOf : StructureNode → Option (List StructureNode)
  | ⟨_, _, _, _, _, cs⟩ => cs

/-- The children of a node, reading an absent `children` key as `[]`
(the source only ever iterates `tree.children ?? []`). -/
def StructureNode.childrenList (n : StructureNode) : List StructureNode :=
  n.childrenOf.getD []

/-- One filesystem directory entry as seen through `fs.readdir` with
`withFileTypes`: a readable directory with its entries, a directory whose own
`readdir` fails with an error message, a plain file, or a symbolic link
(never followed, so it carries no target). -/
inductive FSEntry where
  | dir (name : String) (entries : List FSEntry)
  | badDir (name : String) (errMsg : String)
  | file (name : String)
  | symlink (name : String)

/-- `Dirent.name`. -/
def FSEntry.name : FSEntry → String
  | .dir n _ => n
  | .badDir n _ => n
  | .file n => n
  | .symlink n => n

/-- `Dirent.isDirectory()`. -/
def FSEntry.isDirectory : FSEntry → Bool
  | .dir _ _ => true
  | .badDir _ _ => true
  | .file _ => false
  | .symlink _ => false

/-- `Dirent.isSymbolicLink()`. -/
def FSEntry.isSymbolicLink : FSEntry → Bool
  | .symlink _ => true
  | _ => false

/-- The outcome of `fs.readdir` on a directory entry (`.ok []` is returned for
non-directories, on which the walker never reads). -/
def FSEntry.readResult : FSEntry → Except String (List FSEntry)
  | .dir _ entries => .ok entries
  | .badDir _ msg => .error msg
  | .file _ => .ok []
  | .symlink _ => .ok []

/-- `ScanStats` from the source; `extensions` is the insertion-ordered
extension histogram (a JS object keyed by extension). -/
structure ScanStats where
  totalFiles : Nat
  totalDirectories : Nat
  extensions : List (String × Nat)
deriving Repr, DecidableEq

/-- `ScanOptions` from the source; the caller-supplied ignore `Set` is an
insertion-ordered list queried by membership. -/
structure ScanOptions where
  maxDepth : Nat
  maxEntriesPerDirectory : Nat
  includeHidden : Bool
  ignore : List String
deriving Repr

/-- `ScanAccumulator` plus `ScanStats`: all state the walk mutates. -/
structure ScanState where
  stats : ScanStats
  warnings : List String
  componentDirectories : List String
  entityDirectories : List String
deriving Repr, DecidableEq

/-- `DEFAULT_IGNORE` from the source. -/
def DEFAULT_IGNORE : List String :=
  ["node_modules", ".git", ".hg", ".svn", ".turbo", ".next", ".nuxt", ".yarn",
   ".pnpm-store", ".idea", ".vscode", ".DS_Store", "dist", "build", "out",
   "coverage", "tmp", "temp", ".orka"]

/-- `COMPONENT_KEYWORDS` from the source. -/
def COMPONENT_KEYWORDS : List String := ["component", "components"]

/-- `ENTITY_KEYWORDS` from the source. -/
def ENTITY_KEYWORDS : List String := ["entity", "entities"]

/-- `matchesKeyword` from the source: the lowercased value contains one of the
keywords as a substring. -/
def matchesKeyword (value : String) (keywords : List String) : Bool :=
  keywords.any (fun keyword => strContains (strToLower value) keyword)

/-- `normaliseRelativePath` from the source: replaces the platform separator
with `/`; the identity on posix, which is how it is modelled. -/
def normaliseRelativePath (value : String) : String := value

/-- `shouldIgnoreEntry` from the source. -/
def shouldIgnoreEntry (name relativePath : String) (options : ScanOptions) : Bool :=
  if !options.includeHidden && strStartsWith name "." then true
  else if DEFAULT_IGNORE.contains name || options.ignore.contains name then true
  else if options.ignore.contains relativePath then true
  else false

/-- The relative path of a child entry:
`relativePath ? relativePath + "/" + name : name` (already `/`-separated). -/
def childRelPath (relativePath name : String) : String :=
  normaliseRelativePath (if relativePath = "" then name else relativePath ++ "/" ++ name)

/-- Stable insertion of `x` into a sorted list: `x` goes before the first
element `y` with `le x y`. -/
def insertOrdered (le : α → α → Bool) (x : α) : List α → List α
  | [] => [x]
  | y :: ys => if le x y then x :: y :: ys else y :: insertOrdered le x ys

/-- Stable insertion sort; model of JS `Array.prototype.sort` (stable per
ES2019) with comparator `le`. -/
def sortBy (le : α → α → Bool) : List α → List α
  | [] => []
  | x :: xs => insertOrdered le x (sortBy le xs)

/-- The sort comparator of the walker:
`(a, b) => a.name.localeCompare(b.name)`. -/
def entryNameLe (a b : FSEntry) : Bool := strLe a.name b.name

/-- JS `Set.prototype.add`: append if not already present. -/
def insertSet (s : List String) (x : String) : List String :=
  if s.contains x then s else s ++ [x]

/-- Increment the histogram count of `key`, appending a fresh key at the end
(JS object insertion-order update `stats.extensions[key] = (… ?? 0) + 1`). -/
def bumpExtension : List (String × Nat) → String → List (String × Nat)
  | [], key => [(key, 1)]
  | (k, v) :: rest, key =>
      if k = key then (k, v + 1) :: rest else (k, v) :: bumpExtension rest key

/-- The warning pushed when `fs.readdir` fails
(`Failed to read directory ...`). -/
def failedReadMessage (absolutePath msg : String) : String :=
  "Failed to read directory " ++ absolutePath ++ ": " ++ msg

/-- The `<none>` sentinel used for files without an extension. -/
def NO_EXTENSION_KEY : String := "<none>"

/-- The sorted-and-filtered entry list of one directory: entries sorted by
name, then entries the ignore rules drop removed (source lines 271-278). -/
def sortedFilteredEntries (relativePath : String) (options : ScanOptions)
    (dirEntries : List FSEntry) : List FSEntry :=
  (sortBy entryNameLe dirEntries).filter
    (fun entry => !shouldIgnoreEntry entry.name (childRelPath relativePath entry.name) options)

/-- The two keyword checks after a directory entry is handled (source lines
311-316): add the relative child path to the component/entity directory sets
when the entry name matches the respective keyword list. -/
def recordKeywordDirs (name relativeChildPath : String) (st : ScanState) : ScanState :=
  let st1 :=
    if matchesKeyword name COMPONENT_KEYWORDS then
      { st with componentDirectories := insertSet st.componentDirectories relativeChildPath }
    else st
  if matchesKeyword name ENTITY_KEYWORDS then
    { st1 with entityDirectories := insertSet st1.entityDirectories relativeChildPath }
  else st1

/-- The extension a file entry is recorded with, dot included (source lines
331-335): lowercased `path.extname`, the `.env` special case for dotfiles
named `.env*`, and `none` when there is no extension. -/
def fileExtensionWithDot (name : String) : Option String :=
  let extensionWithDot0 := strToLower (extname name)
  let extensionWithDot :=
    if extensionWithDot0 = "" && strStartsWith name ".env" then ".env"
    else extensionWithDot0
  if strStartsWith extensionWithDot "." then some extensionWithDot else none

/-- The stats update of one file entry (source lines 330-337): count the file
and bump the histogram at the extension key (or the `<none>` sentinel). -/
def recordFileStats (name : String) (st : ScanState) : ScanState :=
  let st1 := { st with stats.totalFiles := st.stats.totalFiles + 1 }
  let key := (fileExtensionWithDot name).getD NO_EXTENSION_KEY
  { st1 with stats.extensions := bumpExtension st1.stats.extensions key }

/-- The `StructureNode` pushed for one file entry (source lines 339-344). -/
def fileNode (name relativeChildPath : String) : StructureNode :=
  ⟨name, relativeChildPath, NodeType.file,
    (fileExtensionWithDot name).map (fun e => strDrop e 1), none, none⟩

/-- The body of the source `for (const entry of limited)` loop (lines 285-345):
processes the kept entries in order, emitting one child node per entry and
threading the mutable state.  `recurse` stands for the recursive
`scanDirectory` call used for subdirectories within the depth bound. -/
def scanEntries
    (recurse : String → String → String → Nat → Except String (List FSEntry) →
      ScanOptions → ScanState → StructureNode × ScanState)
    (absolutePath relativePath : String) (depth : Nat) (options : ScanOptions) :
    List FSEntry → ScanState → List StructureNode × ScanState
  | [], st => ([], st)
  | entry :: rest, st =>
    let relativeChildPath := childRelPath relativePath entry.name
    let absoluteChildPath := pathJoin absolutePath entry.name
    if entry.isDirectory then
      let r :=
        if depth + 1 < options.maxDepth then
          recurse absoluteChildPath entry.name relativeChildPath (depth + 1)
            entry.readResult options st
        else
          (⟨entry.name, relativeChildPath, NodeType.directory, none, some true, none⟩,
           { st with stats.totalDirectories := st.stats.totalDirectories + 1 })
      let st2 := recordKeywordDirs entry.name relativeChildPath r.2
      let rest2 := scanEntries recurse absolutePath relativePath depth options rest st2
      (r.1 :: rest2.1, rest2.2)
    else if entry.isSymbolicLink then
      let st1 := { st with stats.totalFiles := st.stats.totalFiles + 1 }
      let rest2 := scanEntries recurse absolutePath relativePath depth options rest st1
      (⟨entry.name, relativeChildPath, NodeType.symlink, none, none, none⟩ :: rest2.1, rest2.2)
    else
      let st1 := recordFileStats entry.name st
      let rest2 := scanEntries recurse absolutePath relativePath depth options rest st1
      (fileNode entry.name relativeChildPath :: rest2.1, rest2.2)

/-- The body of the source `scanDirectory` (lines 247-356), with the recursive
call abstracted as `recurse`: counts the directory, handles a failed
`readdir` as a warning plus a truncated leaf, otherwise sorts, filters and
caps the entries, walks them, and assembles the node with its truncation
flag. -/
def scanBody
    (recurse : String → String → String → Nat → Except String (List FSEntry) →
      ScanOptions → ScanState → StructureNode × ScanState)
    (absolutePath name relativePath : String) (depth : Nat)
    (readResult : Except String (List FSEntry)) (options : ScanOptions)
    (st0 : ScanState) : StructureNode × ScanState :=
  let st := { st0 with stats.totalDirectories := st0.stats.totalDirectories + 1 }
  let label := if relativePath = "" then "." else relativePath
  match readResult with
  | .error msg =>
    (⟨name, label, NodeType.directory, none, some true, none⟩,
     { st with warnings := st.warnings ++ [failedReadMessage absolutePath msg] })
  | .ok dirEntries =>
    let filtered := sortedFilteredEntries relativePath options dirEntries
    let truncatedByLimit : Bool := decide (filtered.length > options.maxEntriesPerDirectory)
    let limited := if truncatedByLimit then filtered.take options.maxEntriesPerDirectory else filtered
    let r := scanEntries recurse absolutePath relativePath depth options limited st
    let truncatedByDepth : Bool :=
      limited.any FSEntry.isDirectory && decide (depth + 1 ≥ options.maxDepth)
    (⟨name, label, NodeType.directory, none, some (truncatedByLimit || truncatedByDepth),
        some r.1⟩, r.2)

/-- Never-invoked base of the fuel recursion: behaves like the depth-truncated
leaf branch.  `scanDirectory` supplies fuel `maxDepth - depth`, and the
recursive call is guarded by `depth + 1 < maxDepth`, so the fuel never
reaches 0 before the guard stops the recursion. -/
def scanFallback (_absolutePath name relativePath : String) (_depth : Nat)
    (_readResult : Except String (List FSEntry)) (_options : ScanOptions)
    (st : ScanState) : StructureNode × ScanState :=
  (⟨name, relativePath, NodeType.directory, none, some true, none⟩,
   { st with stats.totalDirectories := st.stats.totalDirectories + 1 })

/-- `scanDirectory` with an explicit structural fuel tying the recursive knot:
`scanDirectoryF (fuel + 1)` recurses as `scanDirectoryF fuel`. -/
def scanDirectoryF : Nat → String → String → String → Nat →
    Except String (List FSEntry) → ScanOptions → ScanState → StructureNode × ScanState
  | 0 => scanBody scanFallback
  | fuel + 1 => scanBody (scanDirectoryF fuel)

/-- `scanDirectory` from the source: `name` embeds
`path.basename(absolutePath)` (callers pass the entry name, which is what
`basename` returns on the joined child path). -/
def scanDirectory (absolutePath name relativePath : String) (depth : Nat)
    (readResult : Except String (List FSEntry)) (options : ScanOptions)
    (st : ScanState) : StructureNode × ScanState :=
  scanDirectoryF (options.maxDepth - depth) absolutePath name relativePath depth
    readResult options st

/-! ## Overview derivation (source lines 123-187 and 358-468 of part_001) -/

/-- `EXTENSION_LANGUAGE_MAP` from the source, as an association list queried
with the extension key. -/
def EXTENSION_LANGUAGE_MAP : List (String × String) :=
  [(".ts", "TypeScript"), (".tsx", "TypeScript"), (".js", "JavaScript"),
   (".jsx", "JavaScript"), (".mjs", "JavaScript"), (".cjs", "JavaScript"),
   (".json", "JSON"), (".md", "Markdown"), (".yml", "YAML"), (".yaml", "YAML"),
   (".env", "Configuration"), (".toml", "TOML"), (".cfg", "Configuration"),
   (".ini", "Configuration"), (".html", "HTML"), (".css", "CSS"),
   (".scss", "SCSS"), (".sass", "SCSS"), (".less", "LESS"), (".py", "Python"),
   (".rs", "Rust"), (".go", "Go"), (".rb", "Ruby")]

/-- `KNOWN_TECH_LABELS` from the source. -/
def KNOWN_TECH_LABELS : List (String × String) :=
  [("react", "React"), ("react-dom", "React DOM"), ("next", "Next.js"),
   ("vue", "Vue"), ("svelte", "Svelte"), ("angular", "Angular"),
   ("express", "Express"), ("koa", "Koa"), ("fastify", "Fastify"),
   ("nestjs", "NestJS"), ("hapi", "hapi"), ("vite", "Vite"),
   ("webpack", "Webpack"), ("jest", "Jest"), ("vitest", "Vitest"),
   ("playwright", "Playwright"), ("cypress", "Cypress"),
   ("typescript", "TypeScript"), ("@modelcontextprotocol/sdk", "Model Context Protocol SDK"),
   ("fastmcp", "FastMCP"), ("openai", "OpenAI SDK"), ("commander", "Commander.js"),
   ("pino", "Pino"), ("zod", "Zod"), ("dotenv", "dotenv")]

/-- `NOTABLE_FILES` from the source. -/
def NOTABLE_FILES : List String :=
  ["README.md", "CONTRIBUTING.md", "LICENSE", "tsconfig.json", "package.json",
   "pnpm-lock.yaml", "yarn.lock", "package-lock.json", "bun.lockb"]

/-- Lookup in an association list (a JS plain-object read `map[key]`). -/
def lookupStr (m : List (String × String)) (key : String) : Option String :=
  (m.find? (fun p => p.1 = key)).map (fun p => p.2)

/-- One `{ language, count }` record. -/
structure LanguageCount where
  language : String
  count : Nat
deriving Repr, DecidableEq

/-- Insertion-ordered accumulation of `languageCounts.set(language, … + count)`
over one `[extension, count]` entry. -/
def addLanguageCount (acc : List LanguageCount) (language : String) (count : Nat) :
    List LanguageCount :=
  if acc.any (fun item => item.language = language) then
    acc.map (fun item =>
      if item.language = language then ⟨item.language, item.count + count⟩ else item)
  else acc ++ [⟨language, count⟩]

/-- `deriveLanguages` from the source: walk the extension histogram in
insertion order, skip the `<none>` sentinel and unknown extensions, total the
counts per language, and sort descending by count (stable). -/
def deriveLanguages (extensionCounts : List (String × Nat)) : List LanguageCount :=
  let languageCounts := extensionCounts.foldl
    (fun acc p =>
      if p.1 = NO_EXTENSION_KEY then acc
      else
        match lookupStr EXTENSION_LANGUAGE_MAP p.1 with
        | none => acc
        | some language => addLanguageCount acc language p.2)
    []
  sortBy (fun a b => decide (b.count ≤ a.count)) languageCounts

/-- A `{ name, version }` dependency record (also used for scripts as
`{ name, command }`). -/
structure NamedPair where
  name : String
  value : String
deriving Repr, DecidableEq

/-- `extractDependencies` from the source: object entries sorted by name. -/
def extractDependencies (record : Option (List (String × String))) : List NamedPair :=
  match record with
  | none => []
  | some entries =>
      sortBy (fun a b => strLe a.name b.name) (entries.map (fun p => ⟨p.1, p.2⟩))

/-- `extractScripts` from the source (same shape as `extractDependencies`). -/
def extractScripts (record : Option (List (String × String))) : List NamedPair :=
  match record with
  | none => []
  | some entries =>
      sortBy (fun a b => strLe a.name b.name) (entries.map (fun p => ⟨p.1, p.2⟩))

/-- `selectTop` from the source. -/
def selectTop (items : List α) (limit : Nat) : List α :=
  if items.length > limit then items.take limit else items

/-- Deduplicating, insertion-ordered `Set` built from a list
(`Array.from(new Set(list))`). -/
def dedupList (l : List String) : List String := l.foldl insertSet []

/-- `deriveTechStack` from the source: all detected language names, a
`Node.js` marker whenever any dependency exists, and the known-label lookup of
each (lowercased) dependency name; returned in `Set` insertion order. -/
def deriveTechStack (dependencies devDependencies : List NamedPair)
    (languages : List LanguageCount) : List String :=
  let stack0 := dedupList (languages.map (fun item => item.language))
  let depNames := dedupList ((dependencies ++ devDependencies).map (fun item => item.name))
  let stack1 := if depNames.length > 0 then insertSet stack0 "Node.js" else stack0
  depNames.foldl
    (fun stack dependency =>
      match lookupStr KNOWN_TECH_LABELS (strToLower dependency) with
      | none => stack
      | some label => insertSet stack label)
    stack1

/-- The parsed content of `package.json`, as far as `analyseProject` reads it. -/
structure PackageJsonData where
  name : Option String
  description : Option String
  version : Option String
  packageManager : Option String
  dependencies : Option (List (String × String))
  devDependencies : Option (List (String × String))
  scripts : Option (List (String × String))
deriving Repr

/-- The lock-file candidates of `detectPackageManager`, in priority order. -/
def PACKAGE_MANAGER_CANDIDATES : List (String × String) :=
  [("pnpm-lock.yaml", "pnpm"), ("yarn.lock", "yarn"),
   ("package-lock.json", "npm"), ("bun.lockb", "bun")]

/-- `detectPackageManager` from the source; `rootFiles` models which file
names `pathExists` finds directly under the root. -/
def detectPackageManager (rootFiles : List String) (pkg : Option PackageJsonData) :
    Option String :=
  let declared :=
    match pkg with
    | some p =>
        match p.packageManager with
        | some pm => if pm.data.length > 0 then some pm else none
        | none => none
    | none => none
  match declared with
  | some pm => some pm
  | none => (PACKAGE_MANAGER_CANDIDATES.find? (fun c => rootFiles.contains c.1)).map
      (fun c => c.2)

/-- `collectNotableFiles` from the source: the notable names present at the
root, in `NOTABLE_FILES` order. -/
def collectNotableFiles (rootFiles : List String) : List String :=
  NOTABLE_FILES.filter (fun fileName => rootFiles.contains fileName)

/-! ## `analyseProject` (source lines 473-630 of part_001) -/

/-- The result of `fs.stat` on the scan root: the call may throw, or report
whether the path is a directory. -/
inductive RootStat where
  | inaccessible (msg : String)
  | statOk (isDir : Bool)

/-- The filesystem environment one `analyseProject` run observes: the working
directory, the `fs.stat` outcome on the root, the `readdir` outcome on the
root, whether `package.json` exists and how it parses, and which root-level
file names `pathExists` finds (lock files, notable files). -/
structure ScanEnv where
  cwd : String
  rootStat : RootStat
  rootRead : Except String (List FSEntry)
  packageJsonExists : Bool
  packageJsonParse : Except String PackageJsonData
  rootFiles : List String

/-- `ProjectOverviewInput` after zod parsing (defaults applied); optional
fields stay `Option`, and `ignore`
defaults to `[]` (`args.ignore ?? []`). -/
structure AnalyseArgs where
  rootDirectory : String
  outputDirectory : String
  structureFileName : String
  maxDepth : Nat
  maxEntriesPerDirectory : Nat
  includeHidden : Bool
  ignore : List String
  projectDescription : Option String
  manualTechStack : Option (List String)
  manualLanguages : Option (List String)

/-- One entry of `primaryDirectories` (`{ name, path, truncated }`). -/
structure DirectorySummary where
  name : String
  path : String
  truncated : Bool
deriving Repr, DecidableEq

/-- The JSON document `writeJsonSafely` persists (minus the wall-clock
`generatedAt` stamp and the echoed options, which no claim concerns). -/
structure ArtifactDoc where
  rootDirectory : String
  projectName : String
  description : Option String
  packageManager : Option String
  languages : List LanguageCount
  techStack : List String
  primaryDirectories : List DirectorySummary
  componentDirectories : List String
  entityDirectories : List String
  notableFiles : List String
  scripts : List NamedPair
  tree : StructureNode
  warnings : List String

/-- The overview object returned to the caller (minus `generatedAt` and the
relative-path rendering of the structure file). -/
structure OverviewResult where
  rootDirectory : String
  projectName : String
  description : Option String
  packageManager : Option String
  languages : List LanguageCount
  techStack : List String
  primaryDirectories : List DirectorySummary
  notableFiles : List String
  scripts : List NamedPair
  componentDirectories : List String
  entityDirectories : List String

/-- The value of one successful `analyseProject` call: the returned overview,
the artifact written to `structureFilePath`, and the warnings list of the
response. -/
structure AnalyseResult where
  overview : OverviewResult
  artifact : ArtifactDoc
  structureFilePath : String
  warnings : List String

/-- The fatal diagnostic when `fs.stat` on the root throws. -/
def rootNotAccessibleMessage (rootDirectory msg : String) : String :=
  "Root directory " ++ rootDirectory ++ " not accessible: " ++ msg

/-- The fatal diagnostic when the root is not a directory. -/
def rootNotDirectoryMessage (rootDirectory : String) : String :=
  "Root path " ++ rootDirectory ++ " is not a directory."

/-- The warning recorded when `package.json` is present but unparsable. -/
def failedParsePackageJsonMessage (msg : String) : String :=
  "Failed to parse package.json: " ++ msg

/-- `analyseProject` from the source, over the filesystem snapshot `env`.
Fatal root failures surface as `Except.error` before anything is written; in
the success path the persisted artifact is the `artifact` field of the
result.  The `generatedAt` timestamps and the `options` echo are omitted from
the modelled artifact (wall-clock data no claim depends on). -/
def analyseProject (env : ScanEnv) (args : AnalyseArgs) : Except String AnalyseResult :=
  let rootDirectory := resolveAbsolutePath env.cwd args.rootDirectory
  let outputDirectory := resolveAbsolutePath env.cwd args.outputDirectory
  let structureFilePath := pathJoin outputDirectory args.structureFileName
  match env.rootStat with
  | .inaccessible msg => .error (rootNotAccessibleMessage rootDirectory msg)
  | .statOk isDir =>
    if !isDir then .error (rootNotDirectoryMessage rootDirectory)
    else
      let options : ScanOptions :=
        ⟨args.maxDepth, args.maxEntriesPerDirectory, args.includeHidden,
          args.ignore.map normaliseRelativePath⟩
      let st0 : ScanState := ⟨⟨0, 0, []⟩, [], [], []⟩
      let r := scanDirectory rootDirectory (pathBasename rootDirectory) "" 0
        env.rootRead options st0
      let tree := r.1
      let st := r.2
      let pkgResult : Option (Except String PackageJsonData) :=
        if env.packageJsonExists then some env.packageJsonParse else none
      let packageJson : Option PackageJsonData :=
        match pkgResult with
        | some (.ok d) => some d
        | _ => none
      let warnings :=
        match pkgResult with
        | some (.error msg) => st.warnings ++ [failedParsePackageJsonMessage msg]
        | _ => st.warnings
      let dependencies := extractDependencies (packageJson.bind (fun p => p.dependencies))
      let devDependencies := extractDependencies (packageJson.bind (fun p => p.devDependencies))
      let languages := deriveLanguages st.stats.extensions
      let mergedLanguages0 := (args.manualLanguages.getD []).foldl
        (fun acc manualLanguage =>
          let trimmed := strTrim manualLanguage
          if trimmed = "" then acc
          else if acc.any (fun item => item.language = trimmed) then acc
          else acc ++ [⟨trimmed, 0⟩])
        languages
      let mergedLanguages := sortBy (fun a b => decide (b.count ≤ a.count)) mergedLanguages0
      let autoTechStack := deriveTechStack dependencies devDependencies mergedLanguages
      let techStack := dedupList
        (autoTechStack ++
          (((args.manualTechStack.getD []).map strTrim).filter (fun entry => entry.data.length > 0)))
      let packageManager := detectPackageManager env.rootFiles packageJson
      let notableFiles := collectNotableFiles env.rootFiles
      let primaryDirectories := (tree.childrenList.filter
          (fun child => child.typeOf = NodeType.directory)).map
        (fun child => DirectorySummary.mk child.name child.pathOf (child.truncatedOf.getD false))
      let scripts := selectTop (extractScripts (packageJson.bind (fun p => p.scripts))) 12
      let componentDirectories := selectTop (sortBy strLe st.componentDirectories) 20
      let entityDirectories := selectTop (sortBy strLe st.entityDirectories) 20
      let description :=
        match args.projectDescription with
        | some d => some d
        | none => packageJson.bind (fun p => p.description)
      let projectName :=
        match packageJson.bind (fun p => p.name) with
        | some n => n
        | none => pathBasename rootDirectory
      let overview : OverviewResult :=
        ⟨rootDirectory, projectName, description, packageManager, mergedLanguages,
          techStack, primaryDirectories, notableFiles, scripts,
          componentDirectories, entityDirectories⟩
      let artifact : ArtifactDoc :=
        ⟨rootDirectory, projectName, description, packageManager, mergedLanguages,
          techStack, primaryDirectories, componentDirectories, entityDirectories,
          notableFiles, scripts, tree, warnings⟩
      .ok ⟨overview, artifact, structureFilePath, warnings⟩

/-! ## Project-base artifact reader (`schemas/projectBase.ts`, `utils/projectBase.ts`) -/

/-- A parsed JSON document (numbers as integers; the schema only type-checks
them, so the numeric representation is irrelevant to every claim). -/
inductive Json where
  | null
  | bool (b : Bool)
  | num (n : Int)
  | str (s : String)
  | arr (items : List Json)
  | obj (fields : List (String × Json))

/-- Key lookup in an association list (a parsed JSON object has no duplicate
keys, so first match is the field). -/
def lookupKey {β : Type} : List (String × β) → String → Option β
  | [], _ => none
  | (k, v) :: rest, key => if k = key then some v else lookupKey rest key

/-- `z.string()` type test. -/
def isStringJson : Json → Bool
  | .str _ => true
  | _ => false

/-- `z.number()` type test. -/
def isNumberJson : Json → Bool
  | .num _ => true
  | _ => false

/-- `z.boolean()` type test. -/
def isBooleanJson : Json → Bool
  | .bool _ => true
  | _ => false

/-- An optional object field: absent keys pass, present keys must validate. -/
def checkOptional (fields : List (String × Json)) (key : String) (check : Json → Bool) :
    Bool :=
  match lookupKey fields key with
  | none => true
  | some v => check v

/-- A required object field: absent keys fail. -/
def checkRequired (fields : List (String × Json)) (key : String) (check : Json → Bool) :
    Bool :=
  match lookupKey fields key with
  | none => false
  | some v => check v

/-- `z.array(schema)` type test. -/
def isArrayOfJson (check : Json → Bool) : Json → Bool
  | .arr items => items.all check
  | _ => false

/-- `languageSummarySchema` from the source. -/
def validateLanguageSummary : Json → Bool
  | .obj fields =>
      checkRequired fields "language" isStringJson &&
      checkRequired fields "count" isNumberJson
  | _ => false

/-- `directorySummarySchema` from the source. -/
def validateDirectorySummary : Json → Bool
  | .obj fields =>
      checkRequired fields "name" isStringJson &&
      checkRequired fields "path" isStringJson &&
      checkOptional fields "truncated" isBooleanJson
  | _ => false

/-- `scriptSummarySchema` from the source. -/
def validateScriptSummary : Json → Bool
  | .obj fields =>
      checkRequired fields "name" isStringJson &&
      checkRequired fields "command" isStringJson
  | _ => false

/-- `structureNodeSchema` from the source (`z.lazy` recursion).  The fuel
bounds the recursion depth of the model; any fuel larger than the depth of
the document gives the zod behaviour, which recurses as deep as the
document. -/
def validateStructureNode : Nat → Json → Bool
  | 0, _ => false
  | fuel + 1, .obj fields =>
      checkRequired fields "name" isStringJson &&
      checkRequired fields "path" isStringJson &&
      checkRequired fields "type"
        (fun v =>
          match v with
          | .str s => s = "directory" || s = "file" || s = "symlink"
          | _ => false) &&
      checkOptional fields "extension" isStringJson &&
      checkOptional fields "truncated" isBooleanJson &&
      checkOptional fields "children" (isArrayOfJson (validateStructureNode fuel))
  | _ + 1, _ => false

/-- The nested `options` object of `projectBaseSchema` (all fields optional). -/
def validateOptionsObj : Json → Bool
  | .obj fields =>
      checkOptional fields "maxDepth" isNumberJson &&
      checkOptional fields "maxEntriesPerDirectory" isNumberJson &&
      checkOptional fields "includeHidden" isBooleanJson &&
      checkOptional fields "ignore" (isArrayOfJson isStringJson) &&
      checkOptional fields "manualTechStack" (isArrayOfJson isStringJson) &&
      checkOptional fields "manualLanguages" (isArrayOfJson isStringJson) &&
      checkOptional fields "projectDescription" isStringJson
  | _ => false

/-- `projectBaseSchema` from the source: `rootDirectory` is the only required
top-level field; everything else is optional but type-checked when present.
`fuel` bounds only the `structureNodeSchema` recursion. -/
def validateProjectBase (fuel : Nat) : Json → Bool
  | .obj fields =>
      checkOptional fields "generatedAt" isStringJson &&
      checkRequired fields "rootDirectory" isStringJson &&
      checkOptional fields "projectName" isStringJson &&
      checkOptional fields "description" isStringJson &&
      checkOptional fields "packageManager" isStringJson &&
      checkOptional fields "languages" (isArrayOfJson validateLanguageSummary) &&
      checkOptional fields "techStack" (isArrayOfJson isStringJson) &&
      checkOptional fields "primaryDirectories" (isArrayOfJson validateDirectorySummary) &&
      checkOptional fields "componentDirectories" (isArrayOfJson isStringJson) &&
      checkOptional fields "entityDirectories" (isArrayOfJson isStringJson) &&
      checkOptional fields "notableFiles" (isArrayOfJson isStringJson) &&
      checkOptional fields "scripts" (isArrayOfJson validateScriptSummary) &&
      checkOptional fields "options" validateOptionsObj &&
      checkOptional fields "tree" (validateStructureNode fuel) &&
      checkOptional fields "warnings" (isArrayOfJson isStringJson)
  | _ => false

/-- `DEFAULT_STRUCTURE_FILE_NAME` from `schemas/projectOverview.ts`. -/
def DEFAULT_STRUCTURE_FILE_NAME : String := "project-structure.json"

/-- `resolveProjectBasePath` from `utils/projectBase.ts`: an absolute
`fileName` is used as-is, otherwise it is joined onto `baseDirectory`. -/
def resolveProjectBasePath (baseDirectory fileName : String) : String :=
  if pathIsAbsolute fileName then fileName else pathJoin baseDirectory fileName

/-- The error when the artifact file is absent. -/
def projectBaseNotFoundMessage (p : String) : String :=
  "Project base not found at " ++ p ++
    ". Run the projectOverview tool to generate the project baseline first."

/-- The error when `readJsonSafely` yields nothing (empty or unreadable file). -/
def projectBaseEmptyMessage (p : String) : String :=
  "Project base file " ++ p ++ " is empty or unreadable."

/-- The error when `projectBaseSchema.parse` rejects the document (zod throws
a structured error; the model keeps only the fact of rejection). -/
def projectBaseInvalidMessage (p : String) : String :=
  "Project base file " ++ p ++ " does not match the ProjectBase schema."

/-- `loadProjectBase` from `utils/projectBase.ts` over a snapshot of the
filesystem: `files` maps a path to `some json` when `readJsonSafely` parses
it, to `none` when the file exists but reads as empty/unreadable; an unmapped
path does not exist.  Returns the validated document and the resolved path. -/
def loadProjectBase (files : List (String × Option Json)) (fuel : Nat)
    (baseDirectory fileName : String) : Except String (Json × String) :=
  let structurePath := resolveProjectBasePath baseDirectory fileName
  match lookupKey files structurePath with
  | none => .error (projectBaseNotFoundMessage structurePath)
  | some none => .error (projectBaseEmptyMessage structurePath)
  | some (some raw) =>
      if validateProjectBase fuel raw then .ok (raw, structurePath)
      else .error (projectBaseInvalidMessage structurePath)

/-! ## Tree measures and tree predicates (the spec-side vocabulary) -/

/-- Number of nodes of `type` `t` in a `StructureNode` tree (the node itself
included). -/
def countType (t : NodeType) : StructureNode → Nat
  | ⟨_, _, t0, _, _, children⟩ =>
    (if t0 = t then 1 else 0) +
    (match children with
     | none => 0
     | some cs => (cs.attach.map fun c => countType t c.1).sum)
decreasing_by
  have h := List.sizeOf_lt_of_mem c.2
  simp only [StructureNode.mk.sizeOf_spec, Option.some.sizeOf_spec]
  omega

/-- The total of all histogram counts (every key included). -/
def sumCounts (m : List (String × Nat)) : Nat := (m.map (fun p => p.2)).sum

/-- All nodes at distance exactly `k` below `n` have an empty child list (and
hence nothing exists deeper than `k + 1` below `n`). -/
def NoChildrenBelow : Nat → StructureNode → Prop
  | 0, n => n.childrenList = []
  | k + 1, n => ∀ c ∈ n.childrenList, NoChildrenBelow k c

/-- Down to depth `k`, every node lists its children in lexicographic order by
name.  `∀ k, SortedTo k n` says the whole tree is everywhere sorted. -/
def SortedTo : Nat → StructureNode → Prop
  | 0, _ => True
  | k + 1, n =>
      n.childrenList.Pairwise (fun a b => strLe a.name b.name = true) ∧
      ∀ c ∈ n.childrenList, SortedTo k c

/-! ## Helper lemmas -/

theorem recordKeywordDirs_stats (name rel : String) (st : ScanState) :
    (recordKeywordDirs name rel st).stats = st.stats := by
  unfold recordKeywordDirs
  by_cases h1 : matchesKeyword name COMPONENT_KEYWORDS <;>
    by_cases h2 : matchesKeyword name ENTITY_KEYWORDS <;> simp [h1, h2]

theorem recordKeywordDirs_warnings (name rel : String) (st : ScanState) :
    (recordKeywordDirs name rel st).warnings = st.warnings := by
  unfold recordKeywordDirs
  by_cases h1 : matchesKeyword name COMPONENT_KEYWORDS <;>
    by_cases h2 : matchesKeyword name ENTITY_KEYWORDS <;> simp [h1, h2]

theorem scanBody_name (recurse) (a n r : String) (d : Nat)
    (rr : Except String (List FSEntry)) (o : ScanOptions) (st : ScanState) :
    ((scanBody recurse a n r d rr o st).1).name = n := by
  cases rr <;> rfl

theorem scanDirectoryF_name (fuel : Nat) (a n r : String) (d : Nat)
    (rr : Except String (List FSEntry)) (o : ScanOptions) (st : ScanState) :
    ((scanDirectoryF fuel a n r d rr o st).1).name = n := by
  cases fuel with
  | zero => exact scanBody_name scanFallback a n r d rr o st
  | succ k => exact scanBody_name (scanDirectoryF k) a n r d rr o st

theorem charsLeads_append (l suf : List Char) : charsLeads l (l ++ suf) = true := by
  induction l with
  | nil => rfl
  | cons a as ih => simp [charsLeads, ih]

theorem charsContains_self_append (sub suf : List Char) :
    charsContains sub (sub ++ suf) = true := by
  cases sub with
  | nil =>
    cases suf with
    | nil => rfl
    | cons b bs => simp [charsContains, charsLeads]
  | cons a as => simp [charsContains, charsLeads, charsLeads_append]

theorem charsContains_append_left (pre sub l : List Char)
    (h : charsContains sub l = true) : charsContains sub (pre ++ l) = true := by
  induction pre with
  | nil => simpa using h
  | cons p ps ih => simp [charsContains, ih]

theorem strContains_middle (pre mid suf : String) :
    strContains (pre ++ mid ++ suf) mid = true := by
  show charsContains mid.data (pre ++ mid ++ suf).data = true
  have hdata : (pre ++ mid ++ suf).data = pre.data ++ (mid.data ++ suf.data) := by
    simp [String.data_append]
  rw [hdata]
  exact charsContains_append_left _ _ _ (charsContains_self_append _ _)

theorem sumCounts_bump (m : List (String × Nat)) (key : String) :
    sumCounts (bumpExtension m key) = sumCounts m + 1 := by
  induction m with
  | nil => rfl
  | cons p rest ih =>
    obtain ⟨k, v⟩ := p
    by_cases h : k = key <;> simp [bumpExtension, h, sumCounts] at ih ⊢ <;> omega

theorem insertOrdered_perm (le : α → α → Bool) (x : α) (l : List α) :
    List.Perm (insertOrdered le x l) (x :: l) := by
  induction l with
  | nil => exact List.Perm.refl _
  | cons y ys ih =>
    by_cases h : le x y
    · simp [insertOrdered, h]
    · simp only [insertOrdered, h, if_neg, Bool.false_eq_true, not_false_eq_true]
      exact (ih.cons y).trans (List.Perm.swap x y ys)

theorem sortBy_perm (le : α → α → Bool) (l : List α) : List.Perm (sortBy le l) l := by
  induction l with
  | nil => exact List.Perm.refl _
  | cons x xs ih => exact (insertOrdered_perm le x (sortBy le xs)).trans (ih.cons x)

theorem pairwise_insertOrdered (le : α → α → Bool)
    (htrans : ∀ a b c, le a b = true → le b c = true → le a c = true)
    (htot : ∀ a b, le a b = true ∨ le b a = true)
    (x : α) (l : List α) (h : l.Pairwise (fun a b => le a b = true)) :
    (insertOrdered le x l).Pairwise (fun a b => le a b = true) := by
  induction l with
  | nil => simp [insertOrdered]
  | cons y ys ih =>
    rw [List.pairwise_cons] at h
    obtain ⟨hy, hys⟩ := h
    by_cases hxy : le x y
    · simp only [insertOrdered, hxy, if_pos]
      rw [List.pairwise_cons]
      refine ⟨?_, ?_⟩
      · intro z hz
        rcases List.mem_cons.mp hz with rfl | hz2
        · exact hxy
        · exact htrans x y z hxy (hy z hz2)
      · exact List.pairwise_cons.mpr ⟨hy, hys⟩
    · simp only [insertOrdered, hxy, Bool.false_eq_true, if_neg, not_false_eq_true]
      rw [List.pairwise_cons]
      refine ⟨?_, ih hys⟩
      intro z hz
      have hz3 := (insertOrdered_perm le x ys).mem_iff.mp hz
      rcases List.mem_cons.mp hz3 with h4 | h4
      · rcases htot x y with h1 | h1
        · exact absurd h1 (by simpa using hxy)
        · rw [h4]; exact h1
      · exact hy z h4

theorem pairwise_sortBy (le : α → α → Bool)
    (htrans : ∀ a b c, le a b = true → le b c = true → le a c = true)
    (htot : ∀ a b, le a b = true ∨ le b a = true) (l : List α) :
    (sortBy le l).Pairwise (fun a b => le a b = true) := by
  induction l with
  | nil => simp [sortBy]
  | cons x xs ih => exact pairwise_insertOrdered le htrans htot x (sortBy le xs) ih

theorem charsLe_total : ∀ a b : List Char, charsLe a b = true ∨ charsLe b a = true
  | [], _ => Or.inl rfl
  | _ :: _, [] => Or.inr rfl
  | a :: as, b :: bs => by
    by_cases hab : a = b
    · subst hab
      rcases charsLe_total as bs with h | h
      · exact Or.inl (by simpa [charsLe] using h)
      · exact Or.inr (by simpa [charsLe] using h)
    · rcases lt_or_gt_of_ne hab with h | h
      · exact Or.inl (by simp [charsLe, hab, h])
      · exact Or.inr (by simp [charsLe, Ne.symm hab, h])

theorem charsLe_trans :
    ∀ a b c : List Char, charsLe a b = true → charsLe b c = true → charsLe a c = true
  | [], _, _, _, _ => rfl
  | _ :: _, [], _, h1, _ => by simp [charsLe] at h1
  | _ :: _, _ :: _, [], _, h2 => by simp [charsLe] at h2
  | a :: as, b :: bs, c :: cs, h1, h2 => by
    by_cases hab : a = b <;> by_cases hbc : b = c
    · subst hab; subst hbc
      simp only [charsLe, if_pos rfl] at h1 h2 ⊢
      exact charsLe_trans as bs cs h1 h2
    · subst hab
      simp only [charsLe, if_pos rfl] at h1
      simpa [charsLe, hbc] using h2
    · subst hbc
      simpa [charsLe, hab] using h1
    · have h1b : a < b := by simpa [charsLe, hab] using h1
      have h2b : b < c := by simpa [charsLe, hbc] using h2
      have hac : a < c := lt_trans h1b h2b
      simp [charsLe, ne_of_lt hac, hac]

theorem strLe_total (a b : String) : strLe a b = true ∨ strLe b a = true :=
  charsLe_total a.data b.data

theorem strLe_trans (a b c : String) (h1 : strLe a b = true) (h2 : strLe b c = true) :
    strLe a c = true :=
  charsLe_trans a.data b.data c.data h1 h2

theorem countType_some (t : NodeType) (nm p : String) (t0 : NodeType) (e : Option String)
    (tr : Option Bool) (cs : List StructureNode) :
    countType t ⟨nm, p, t0, e, tr, some cs⟩ =
      (if t0 = t then 1 else 0) + (cs.map (countType t)).sum := by
  rw [countType, List.attach_map_val]

theorem countType_none (t : NodeType) (nm p : String) (t0 : NodeType) (e : Option String)
    (tr : Option Bool) :
    countType t ⟨nm, p, t0, e, tr, none⟩ = (if t0 = t then 1 else 0) := by
  rw [countType]
  exact Nat.add_zero _

theorem noChildrenBelow_of_leaf (n : StructureNode) (h : n.childrenList = []) :
    ∀ k, NoChildrenBelow k n
  | 0 => h
  | k + 1 => by
    intro c hc
    rw [h] at hc
    cases hc

theorem sortedTo_of_leaf (n : StructureNode) (h : n.childrenList = []) :
    ∀ k, SortedTo k n
  | 0 => trivial
  | k + 1 => by
    refine ⟨?_, ?_⟩
    · rw [h]; exact List.Pairwise.nil
    · intro c hc
      rw [h] at hc
      cases hc

theorem noChildrenBelow_mk_none (nm p : String) (t : NodeType) (e : Option String)
    (tr : Option Bool) (k : Nat) :
    NoChildrenBelow k (⟨nm, p, t, e, tr, none⟩ : StructureNode) :=
  noChildrenBelow_of_leaf ⟨nm, p, t, e, tr, none⟩ rfl k

theorem sortedTo_mk_none (nm p : String) (t : NodeType) (e : Option String)
    (tr : Option Bool) (k : Nat) :
    SortedTo k (⟨nm, p, t, e, tr, none⟩ : StructureNode) :=
  sortedTo_of_leaf ⟨nm, p, t, e, tr, none⟩ rfl k

/-! ## Master lemmas about the walk -/

/-- The stats change of handling one node: each counter grows by the number of
matching nodes in the emitted subtree. -/
def statsDelta (node : StructureNode) (stBefore stAfter : ScanState) : Prop :=
  stAfter.stats.totalDirectories =
      stBefore.stats.totalDirectories + countType .directory node ∧
  stAfter.stats.totalFiles =
      stBefore.stats.totalFiles + countType .file node + countType .symlink node ∧
  sumCounts stAfter.stats.extensions =
      sumCounts stBefore.stats.extensions + countType .file node

/-- The stats change of handling a list of entries. -/
def statsDeltaList (nodes : List StructureNode) (stBefore stAfter : ScanState) : Prop :=
  stAfter.stats.totalDirectories =
      stBefore.stats.totalDirectories + (nodes.map (countType .directory)).sum ∧
  stAfter.stats.totalFiles =
      stBefore.stats.totalFiles + (nodes.map (countType .file)).sum +
        (nodes.map (countType .symlink)).sum ∧
  sumCounts stAfter.stats.extensions =
      sumCounts stBefore.stats.extensions + (nodes.map (countType .file)).sum

theorem statsDeltaList_nil (st : ScanState) : statsDeltaList [] st st := by
  refine ⟨?_, ?_, ?_⟩ <;> simp

theorem statsDeltaList_cons (node : StructureNode) (nodes : List StructureNode)
    (st0 st1 st2 : ScanState) (h1 : statsDelta node st0 st1)
    (h2 : statsDeltaList nodes st1 st2) : statsDeltaList (node :: nodes) st0 st2 := by
  obtain ⟨a1, a2, a3⟩ := h1
  obtain ⟨b1, b2, b3⟩ := h2
  refine ⟨?_, ?_, ?_⟩ <;> simp only [List.map_cons, List.sum_cons] <;> omega

theorem statsDelta_congr (node : StructureNode) (st0 st1 st1b : ScanState)
    (h : statsDelta node st0 st1) (he : st1b.stats = st1.stats) :
    statsDelta node st0 st1b := by
  unfold statsDelta
  rw [he]
  exact h

theorem statsDelta_dirLeaf (nm rel : String) (st : ScanState) :
    statsDelta ⟨nm, rel, NodeType.directory, none, some true, none⟩ st
      { st with stats.totalDirectories := st.stats.totalDirectories + 1 } := by
  refine ⟨?_, ?_, ?_⟩ <;> simp [countType_none]

theorem statsDelta_symlinkLeaf (nm rel : String) (st : ScanState) :
    statsDelta ⟨nm, rel, NodeType.symlink, none, none, none⟩ st
      { st with stats.totalFiles := st.stats.totalFiles + 1 } := by
  refine ⟨?_, ?_, ?_⟩ <;> simp [countType_none]

theorem statsDelta_fileNode (nm rel : String) (st : ScanState) :
    statsDelta (fileNode nm rel) st (recordFileStats nm st) := by
  refine ⟨?_, ?_, ?_⟩ <;>
    simp [fileNode, countType_none, recordFileStats, sumCounts_bump]

theorem scanEntries_stats (recurse)
    (hrec : ∀ a n r d rr o st,
      statsDelta ((recurse a n r d rr o st).1) st ((recurse a n r d rr o st).2))
    (absolutePath relativePath : String) (depth : Nat) (options : ScanOptions) :
    ∀ (entries : List FSEntry) (st : ScanState),
      statsDeltaList
        ((scanEntries recurse absolutePath relativePath depth options entries st).1)
        st ((scanEntries recurse absolutePath relativePath depth options entries st).2) := by
  intro entries
  induction entries with
  | nil => intro st; exact statsDeltaList_nil st
  | cons entry rest ih =>
    intro st
    cases entry with
    | dir nm sub =>
      by_cases hd : depth + 1 < options.maxDepth
      · simp only [scanEntries, FSEntry.isDirectory, FSEntry.name, FSEntry.readResult,
          if_pos hd, if_true]
        exact statsDeltaList_cons _ _ _ _ _
          (statsDelta_congr _ _ _ _ (hrec _ _ _ _ _ _ _) (recordKeywordDirs_stats _ _ _))
          (ih _)
      · simp only [scanEntries, FSEntry.isDirectory, FSEntry.name, FSEntry.readResult,
          if_neg hd, if_true]
        exact statsDeltaList_cons _ _ _ _ _
          (statsDelta_congr _ _ _ _ (statsDelta_dirLeaf _ _ _) (recordKeywordDirs_stats _ _ _))
          (ih _)
    | badDir nm msg =>
      by_cases hd : depth + 1 < options.maxDepth
      · simp only [scanEntries, FSEntry.isDirectory, FSEntry.name, FSEntry.readResult,
          if_pos hd, if_true]
        exact statsDeltaList_cons _ _ _ _ _
          (statsDelta_congr _ _ _ _ (hrec _ _ _ _ _ _ _) (recordKeywordDirs_stats _ _ _))
          (ih _)
      · simp only [scanEntries, FSEntry.isDirectory, FSEntry.name, FSEntry.readResult,
          if_neg hd, if_true]
        exact statsDeltaList_cons _ _ _ _ _
          (statsDelta_congr _ _ _ _ (statsDelta_dirLeaf _ _ _) (recordKeywordDirs_stats _ _ _))
          (ih _)
    | file nm =>
      simp only [scanEntries, FSEntry.isDirectory, FSEntry.isSymbolicLink, FSEntry.name,
        Bool.false_eq_true, if_false]
      exact statsDeltaList_cons _ _ _ _ _ (statsDelta_fileNode _ _ _) (ih _)
    | symlink nm =>
      simp only [scanEntries, FSEntry.isDirectory, FSEntry.isSymbolicLink, FSEntry.name,
        Bool.false_eq_true, if_false, if_true]
      exact statsDeltaList_cons _ _ _ _ _ (statsDelta_symlinkLeaf _ _ _) (ih _)

theorem statsDelta_assemble (nm p : String) (tr : Option Bool)
    (nodes : List StructureNode) (st st1 st2 : ScanState)
    (h1 : st1.stats.totalDirectories = st.stats.totalDirectories + 1)
    (h1b : st1.stats.totalFiles = st.stats.totalFiles)
    (h1c : st1.stats.extensions = st.stats.extensions)
    (h2 : statsDeltaList nodes st1 st2) :
    statsDelta ⟨nm, p, NodeType.directory, none, tr, some nodes⟩ st st2 := by
  obtain ⟨b1, b2, b3⟩ := h2
  have h1cs : sumCounts st1.stats.extensions = sumCounts st.stats.extensions := by rw [h1c]
  refine ⟨?_, ?_, ?_⟩ <;> simp [countType_some] <;> omega

theorem scanBody_stats (recurse)
    (hrec : ∀ a n r d rr o st,
      statsDelta ((recurse a n r d rr o st).1) st ((recurse a n r d rr o st).2))
    (a n r : String) (d : Nat) (rr : Except String (List FSEntry)) (o : ScanOptions)
    (st : ScanState) :
    statsDelta ((scanBody recurse a n r d rr o st).1) st ((scanBody recurse a n r d rr o st).2) := by
  cases rr with
  | error msg =>
    refine ⟨?_, ?_, ?_⟩ <;> simp [scanBody, countType_none]
  | ok dirEntries =>
    simp only [scanBody]
    exact statsDelta_assemble _ _ _ _ _
      { st with stats := { st.stats with totalDirectories := st.stats.totalDirectories + 1 } }
      _ rfl rfl rfl (scanEntries_stats recurse hrec a r d o _ _)

theorem scanFallback_stats (a n r : String) (d : Nat) (rr : Except String (List FSEntry))
    (o : ScanOptions) (st : ScanState) :
    statsDelta ((scanFallback a n r d rr o st).1) st ((scanFallback a n r d rr o st).2) :=
  statsDelta_dirLeaf n r st

theorem scanDirectoryF_stats (fuel : Nat) :
    ∀ (a n r : String) (d : Nat) (rr : Except String (List FSEntry)) (o : ScanOptions)
      (st : ScanState),
      statsDelta ((scanDirectoryF fuel a n r d rr o st).1) st
        ((scanDirectoryF fuel a n r d rr o st).2) := by
  induction fuel with
  | zero =>
    intro a n r d rr o st
    exact scanBody_stats scanFallback scanFallback_stats a n r d rr o st
  | succ k ih =>
    intro a n r d rr o st
    exact scanBody_stats (scanDirectoryF k) ih a n r d rr o st

theorem warnings_append_trans {w1 w2 w3 : List String}
    (h1 : ∃ t, w2 = w1 ++ t) (h2 : ∃ t, w3 = w2 ++ t) : ∃ t, w3 = w1 ++ t := by
  obtain ⟨a, ha⟩ := h1
  obtain ⟨b, hb⟩ := h2
  exact ⟨a ++ b, by rw [hb, ha, List.append_assoc]⟩

theorem recordFileStats_warnings (nm : String) (st : ScanState) :
    (recordFileStats nm st).warnings = st.warnings := by
  simp [recordFileStats]

theorem scanEntries_warnings (recurse)
    (hrec : ∀ a n r d rr o st,
      ∃ tail, ((recurse a n r d rr o st).2).warnings = st.warnings ++ tail)
    (absolutePath relativePath : String) (depth : Nat) (options : ScanOptions) :
    ∀ (entries : List FSEntry) (st : ScanState),
      ∃ tail,
        ((scanEntries recurse absolutePath relativePath depth options entries st).2).warnings =
          st.warnings ++ tail := by
  intro entries
  induction entries with
  | nil => intro st; exact ⟨[], by simp [scanEntries]⟩
  | cons entry rest ih =>
    intro st
    cases entry with
    | dir nm sub =>
      by_cases hd : depth + 1 < options.maxDepth
      · simp only [scanEntries, FSEntry.isDirectory, FSEntry.name, FSEntry.readResult,
          if_pos hd, if_true]
        refine warnings_append_trans ?_ (ih _)
        rw [recordKeywordDirs_warnings]
        exact hrec _ _ _ _ _ _ _
      · simp only [scanEntries, FSEntry.isDirectory, FSEntry.name, FSEntry.readResult,
          if_neg hd, if_true]
        refine warnings_append_trans ?_ (ih _)
        rw [recordKeywordDirs_warnings]
        exact ⟨[], by simp⟩
    | badDir nm msg =>
      by_cases hd : depth + 1 < options.maxDepth
      · simp only [scanEntries, FSEntry.isDirectory, FSEntry.name, FSEntry.readResult,
          if_pos hd, if_true]
        refine warnings_append_trans ?_ (ih _)
        rw [recordKeywordDirs_warnings]
        exact hrec _ _ _ _ _ _ _
      · simp only [scanEntries, FSEntry.isDirectory, FSEntry.name, FSEntry.readResult,
          if_neg hd, if_true]
        refine warnings_append_trans ?_ (ih _)
        rw [recordKeywordDirs_warnings]
        exact ⟨[], by simp⟩
    | file nm =>
      simp only [scanEntries, FSEntry.isDirectory, FSEntry.isSymbolicLink, FSEntry.name,
        Bool.false_eq_true, if_false]
      refine warnings_append_trans ?_ (ih _)
      exact ⟨[], by simp [recordFileStats_warnings]⟩
    | symlink nm =>
      simp only [scanEntries, FSEntry.isDirectory, FSEntry.isSymbolicLink, FSEntry.name,
        Bool.false_eq_true, if_false, if_true]
      refine warnings_append_trans ?_ (ih _)
      exact ⟨[], by simp⟩

theorem scanBody_warnings (recurse)
    (hrec : ∀ a n r d rr o st,
      ∃ tail, ((recurse a n r d rr o st).2).warnings = st.warnings ++ tail)
    (a n r : String) (d : Nat) (rr : Except String (List FSEntry)) (o : ScanOptions)
    (st : ScanState) :
    ∃ tail, ((scanBody recurse a n r d rr o st).2).warnings = st.warnings ++ tail := by
  cases rr with
  | error msg => exact ⟨[failedReadMessage a msg], by simp [scanBody]⟩
  | ok dirEntries =>
    simp only [scanBody]
    refine warnings_append_trans (⟨[], by simp⟩ : ∃ t, _) (scanEntries_warnings recurse hrec a r d o _ _)

theorem scanFallback_warnings (a n r : String) (d : Nat) (rr : Except String (List FSEntry))
    (o : ScanOptions) (st : ScanState) :
    ∃ tail, ((scanFallback a n r d rr o st).2).warnings = st.warnings ++ tail :=
  ⟨[], by simp [scanFallback]⟩

theorem scanDirectoryF_warnings (fuel : Nat) :
    ∀ (a n r : String) (d : Nat) (rr : Except String (List FSEntry)) (o : ScanOptions)
      (st : ScanState),
      ∃ tail, ((scanDirectoryF fuel a n r d rr o st).2).warnings = st.warnings ++ tail := by
  induction fuel with
  | zero =>
    intro a n r d rr o st
    exact scanBody_warnings scanFallback scanFallback_warnings a n r d rr o st
  | succ k ih =>
    intro a n r d rr o st
    exact scanBody_warnings (scanDirectoryF k) ih a n r d rr o st

theorem scanEntries_names (recurse)
    (hrec : ∀ a n r d rr o st, ((recurse a n r d rr o st).1).name = n)
    (absolutePath relativePath : String) (depth : Nat) (options : ScanOptions) :
    ∀ (entries : List FSEntry) (st : ScanState),
      ((scanEntries recurse absolutePath relativePath depth options entries st).1).map
        StructureNode.name = entries.map FSEntry.name := by
  intro entries
  induction entries with
  | nil => intro st; rfl
  | cons entry rest ih =>
    intro st
    cases entry with
    | dir nm sub =>
      by_cases hd : depth + 1 < options.maxDepth
      · simp only [scanEntries, FSEntry.isDirectory, FSEntry.name, FSEntry.readResult,
          if_pos hd, if_true, List.map_cons]
        rw [hrec, ih]
      · simp only [scanEntries, FSEntry.isDirectory, FSEntry.name, FSEntry.readResult,
          if_neg hd, if_true, List.map_cons, StructureNode.name]
        rw [ih]
    | badDir nm msg =>
      by_cases hd : depth + 1 < options.maxDepth
      · simp only [scanEntries, FSEntry.isDirectory, FSEntry.name, FSEntry.readResult,
          if_pos hd, if_true, List.map_cons]
        rw [hrec, ih]
      · simp only [scanEntries, FSEntry.isDirectory, FSEntry.name, FSEntry.readResult,
          if_neg hd, if_true, List.map_cons, StructureNode.name]
        rw [ih]
    | file nm =>
      simp only [scanEntries, FSEntry.isDirectory, FSEntry.isSymbolicLink, FSEntry.name,
        Bool.false_eq_true, if_false, List.map_cons, fileNode, StructureNode.name]
      rw [ih]
    | symlink nm =>
      simp only [scanEntries, FSEntry.isDirectory, FSEntry.isSymbolicLink, FSEntry.name,
        Bool.false_eq_true, if_false, if_true, List.map_cons, StructureNode.name]
      rw [ih]

theorem scanEntries_depthBound (recurse) (options : ScanOptions) (depth : Nat)
    (hrec : depth + 1 < options.maxDepth →
      ∀ a n r rr st, NoChildrenBelow (options.maxDepth - (depth + 1))
        ((recurse a n r (depth + 1) rr options st).1))
    (absolutePath relativePath : String) :
    ∀ (entries : List FSEntry) (st : ScanState) (c : StructureNode),
      c ∈ (scanEntries recurse absolutePath relativePath depth options entries st).1 →
      NoChildrenBelow (options.maxDepth - (depth + 1)) c := by
  intro entries
  induction entries with
  | nil => intro st c hc; simp [scanEntries] at hc
  | cons entry rest ih =>
    intro st c hc
    cases entry with
    | dir nm sub =>
      by_cases hd : depth + 1 < options.maxDepth
      · simp only [scanEntries, FSEntry.isDirectory, FSEntry.name, FSEntry.readResult,
          if_pos hd, if_true, List.mem_cons] at hc
        rcases hc with h1 | h1
        · rw [h1]; exact hrec hd _ _ _ _ _
        · exact ih _ _ h1
      · simp only [scanEntries, FSEntry.isDirectory, FSEntry.name, FSEntry.readResult,
          if_neg hd, if_true, List.mem_cons] at hc
        rcases hc with h1 | h1
        · rw [h1]; exact noChildrenBelow_mk_none _ _ _ _ _ _
        · exact ih _ _ h1
    | badDir nm msg =>
      by_cases hd : depth + 1 < options.maxDepth
      · simp only [scanEntries, FSEntry.isDirectory, FSEntry.name, FSEntry.readResult,
          if_pos hd, if_true, List.mem_cons] at hc
        rcases hc with h1 | h1
        · rw [h1]; exact hrec hd _ _ _ _ _
        · exact ih _ _ h1
      · simp only [scanEntries, FSEntry.isDirectory, FSEntry.name, FSEntry.readResult,
          if_neg hd, if_true, List.mem_cons] at hc
        rcases hc with h1 | h1
        · rw [h1]; exact noChildrenBelow_mk_none _ _ _ _ _ _
        · exact ih _ _ h1
    | file nm =>
      simp only [scanEntries, FSEntry.isDirectory, FSEntry.isSymbolicLink, FSEntry.name,
        Bool.false_eq_true, if_false, List.mem_cons] at hc
      rcases hc with h1 | h1
      · rw [h1]; exact noChildrenBelow_mk_none _ _ _ _ _ _
      · exact ih _ _ h1
    | symlink nm =>
      simp only [scanEntries, FSEntry.isDirectory, FSEntry.isSymbolicLink, FSEntry.name,
        Bool.false_eq_true, if_false, if_true, List.mem_cons] at hc
      rcases hc with h1 | h1
      · rw [h1]; exact noChildrenBelow_mk_none _ _ _ _ _ _
      · exact ih _ _ h1

theorem scanBody_depthBound (recurse) (options : ScanOptions) (depth : Nat)
    (hrec : depth + 1 < options.maxDepth →
      ∀ a n r rr st, NoChildrenBelow (options.maxDepth - (depth + 1))
        ((recurse a n r (depth + 1) rr options st).1))
    (a n r : String) (rr : Except String (List FSEntry)) (st : ScanState)
    (hdep : depth < options.maxDepth) :
    NoChildrenBelow (options.maxDepth - depth) ((scanBody recurse a n r depth rr options st).1) := by
  obtain ⟨k, hk⟩ : ∃ k, options.maxDepth - depth = k + 1 :=
    ⟨options.maxDepth - depth - 1, by omega⟩
  rw [hk]
  cases rr with
  | error msg =>
    intro c hc
    simp [scanBody, StructureNode.childrenList, StructureNode.childrenOf] at hc
  | ok dirEntries =>
    intro c hc
    have hk2 : k = options.maxDepth - (depth + 1) := by omega
    simp only [scanBody, StructureNode.childrenList, StructureNode.childrenOf,
      Option.getD_some] at hc
    rw [hk2]
    exact scanEntries_depthBound recurse options depth hrec a r _ _ c hc

theorem scanDirectoryF_depthBound (fuel : Nat) :
    ∀ (a n r : String) (depth : Nat) (rr : Except String (List FSEntry))
      (options : ScanOptions) (st : ScanState),
      depth < options.maxDepth →
      NoChildrenBelow (options.maxDepth - depth)
        ((scanDirectoryF fuel a n r depth rr options st).1) := by
  induction fuel with
  | zero =>
    intro a n r depth rr options st hdep
    exact scanBody_depthBound scanFallback options depth
      (fun hd a2 n2 r2 rr2 st2 => noChildrenBelow_mk_none _ _ _ _ _ _) a n r rr st hdep
  | succ kf ih =>
    intro a n r depth rr options st hdep
    exact scanBody_depthBound (scanDirectoryF kf) options depth
      (fun hd a2 n2 r2 rr2 st2 => ih a2 n2 r2 (depth + 1) rr2 options st2 hd) a n r rr st hdep

theorem pairwise_nodes_of_names {nodes : List StructureNode} {entries : List FSEntry}
    (hnames : nodes.map StructureNode.name = entries.map FSEntry.name)
    (h : entries.Pairwise (fun a b => strLe a.name b.name = true)) :
    nodes.Pairwise (fun a b => strLe a.name b.name = true) := by
  have h1 : (entries.map FSEntry.name).Pairwise (fun a b => strLe a b = true) :=
    List.pairwise_map.mpr h
  rw [← hnames] at h1
  exact List.pairwise_map.mp h1

theorem pairwise_limited (relativePath : String) (options : ScanOptions)
    (dirEntries : List FSEntry) (limited : List FSEntry)
    (hsub : limited = (sortedFilteredEntries relativePath options dirEntries).take
        options.maxEntriesPerDirectory ∨
      limited = sortedFilteredEntries relativePath options dirEntries) :
    limited.Pairwise (fun a b => strLe a.name b.name = true) := by
  have hsorted : (sortBy entryNameLe dirEntries).Pairwise (fun a b => entryNameLe a b = true) :=
    pairwise_sortBy entryNameLe (fun a b c => strLe_trans a.name b.name c.name)
      (fun a b => strLe_total a.name b.name) dirEntries
  have hfiltered : (sortedFilteredEntries relativePath options dirEntries).Pairwise
      (fun a b => strLe a.name b.name = true) := by
    unfold sortedFilteredEntries
    exact (hsorted.filter _).imp (fun hab => hab)
  rcases hsub with h | h
  · rw [h]
    exact hfiltered.sublist (List.take_sublist _ _)
  · rw [h]
    exact hfiltered

theorem scanEntries_sorted (recurse) (options : ScanOptions) (depth : Nat)
    (hrecS : ∀ a n r rr st k, SortedTo k ((recurse a n r (depth + 1) rr options st).1))
    (absolutePath relativePath : String) :
    ∀ (entries : List FSEntry) (st : ScanState) (k : Nat) (c : StructureNode),
      c ∈ (scanEntries recurse absolutePath relativePath depth options entries st).1 →
      SortedTo k c := by
  intro entries
  induction entries with
  | nil => intro st k c hc; simp [scanEntries] at hc
  | cons entry rest ih =>
    intro st k c hc
    cases entry with
    | dir nm sub =>
      by_cases hd : depth + 1 < options.maxDepth
      · simp only [scanEntries, FSEntry.isDirectory, FSEntry.name, FSEntry.readResult,
          if_pos hd, if_true, List.mem_cons] at hc
        rcases hc with h1 | h1
        · rw [h1]; exact hrecS _ _ _ _ _ _
        · exact ih _ _ _ h1
      · simp only [scanEntries, FSEntry.isDirectory, FSEntry.name, FSEntry.readResult,
          if_neg hd, if_true, List.mem_cons] at hc
        rcases hc with h1 | h1
        · rw [h1]; exact sortedTo_mk_none _ _ _ _ _ _
        · exact ih _ _ _ h1
    | badDir nm msg =>
      by_cases hd : depth + 1 < options.maxDepth
      · simp only [scanEntries, FSEntry.isDirectory, FSEntry.name, FSEntry.readResult,
          if_pos hd, if_true, List.mem_cons] at hc
        rcases hc with h1 | h1
        · rw [h1]; exact hrecS _ _ _ _ _ _
        · exact ih _ _ _ h1
      · simp only [scanEntries, FSEntry.isDirectory, FSEntry.name, FSEntry.readResult,
          if_neg hd, if_true, List.mem_cons] at hc
        rcases hc with h1 | h1
        · rw [h1]; exact sortedTo_mk_none _ _ _ _ _ _
        · exact ih _ _ _ h1
    | file nm =>
      simp only [scanEntries, FSEntry.isDirectory, FSEntry.isSymbolicLink, FSEntry.name,
        Bool.false_eq_true, if_false, List.mem_cons] at hc
      rcases hc with h1 | h1
      · rw [h1]; exact sortedTo_mk_none _ _ _ _ _ _
      · exact ih _ _ _ h1
    | symlink nm =>
      simp only [scanEntries, FSEntry.isDirectory, FSEntry.isSymbolicLink, FSEntry.name,
        Bool.false_eq_true, if_false, if_true, List.mem_cons] at hc
      rcases hc with h1 | h1
      · rw [h1]; exact sortedTo_mk_none _ _ _ _ _ _
      · exact ih _ _ _ h1

theorem scanBody_sorted (recurse) (options : ScanOptions) (depth : Nat)
    (hrecN : ∀ a n r d rr o st, ((recurse a n r d rr o st).1).name = n)
    (hrecS : ∀ a n r rr st k, SortedTo k ((recurse a n r (depth + 1) rr options st).1))
    (a n r : String) (rr : Except String (List FSEntry)) (st : ScanState) (k : Nat) :
    SortedTo k ((scanBody recurse a n r depth rr options st).1) := by
  cases k with
  | zero => trivial
  | succ k2 =>
    cases rr with
    | error msg => exact sortedTo_mk_none _ _ _ _ _ _
    | ok dirEntries =>
      refine ⟨?_, ?_⟩
      · simp only [scanBody, StructureNode.childrenList, StructureNode.childrenOf,
          Option.getD_some]
        refine pairwise_nodes_of_names
          (scanEntries_names recurse hrecN a r depth options _ _) ?_
        apply pairwise_limited r options dirEntries
        by_cases hcap :
          decide ((sortedFilteredEntries r options dirEntries).length >
            options.maxEntriesPerDirectory) = true
        · rw [if_pos hcap]; exact Or.inl rfl
        · rw [if_neg hcap]; exact Or.inr rfl
      · intro c hc
        simp only [scanBody, StructureNode.childrenList, StructureNode.childrenOf,
          Option.getD_some] at hc
        exact scanEntries_sorted recurse options depth hrecS a r _ _ k2 c hc

theorem scanDirectoryF_sorted (fuel : Nat) :
    ∀ (a n r : String) (d : Nat) (rr : Except String (List FSEntry)) (o : ScanOptions)
      (st : ScanState) (k : Nat),
      SortedTo k ((scanDirectoryF fuel a n r d rr o st).1) := by
  induction fuel with
  | zero =>
    intro a n r d rr o st k
    exact scanBody_sorted scanFallback o d (fun a2 n2 r2 d2 rr2 o2 st2 => rfl)
      (fun a2 n2 r2 rr2 st2 k2 => sortedTo_mk_none _ _ _ _ _ _) a n r rr st k
  | succ kf ih =>
    intro a n r d rr o st k
    exact scanBody_sorted (scanDirectoryF kf) o d (scanDirectoryF_name kf)
      (fun a2 n2 r2 rr2 st2 k2 => ih a2 n2 r2 (d + 1) rr2 o st2 k2) a n r rr st k

/-! ## Message-containment lemmas -/

theorem strContains_failedRead (a msg : String) :
    strContains (failedReadMessage a msg) a = true := by
  show charsContains a.data (failedReadMessage a msg).data = true
  have hdata : (failedReadMessage a msg).data =
      "Failed to read directory ".data ++ (a.data ++ (": " ++ msg).data) := by
    simp [failedReadMessage, String.data_append, List.append_assoc]
  rw [hdata]
  exact charsContains_append_left _ _ _ (charsContains_self_append _ _)

theorem strContains_rootNotAccessible (root msg : String) :
    strContains (rootNotAccessibleMessage root msg) root = true := by
  show charsContains root.data (rootNotAccessibleMessage root msg).data = true
  have hdata : (rootNotAccessibleMessage root msg).data =
      "Root directory ".data ++ (root.data ++ (" not accessible: " ++ msg).data) := by
    simp [rootNotAccessibleMessage, String.data_append, List.append_assoc]
  rw [hdata]
  exact charsContains_append_left _ _ _ (charsContains_self_append _ _)

theorem strContains_rootNotDirectory (root : String) :
    strContains (rootNotDirectoryMessage root) root = true := by
  show charsContains root.data (rootNotDirectoryMessage root).data = true
  have hdata : (rootNotDirectoryMessage root).data =
      "Root path ".data ++ (root.data ++ " is not a directory.".data) := by
    simp [rootNotDirectoryMessage, String.data_append, List.append_assoc]
  rw [hdata]
  exact charsContains_append_left _ _ _ (charsContains_self_append _ _)

/-! ## Claim theorems -/

theorem scanBody_cap (recurse)
    (hrecN : ∀ a n r d rr o st, ((recurse a n r d rr o st).1).name = n)
    (a n r : String) (depth : Nat) (entries : List FSEntry) (options : ScanOptions)
    (st : ScanState)
    (h : (sortedFilteredEntries r options entries).length > options.maxEntriesPerDirectory) :
    ((scanBody recurse a n r depth (.ok entries) options st).1).truncatedOf = some true ∧
    ∃ cs, ((scanBody recurse a n r depth (.ok entries) options st).1).childrenOf = some cs ∧
      cs.length = options.maxEntriesPerDirectory ∧
      cs.map StructureNode.name =
        ((sortedFilteredEntries r options entries).take options.maxEntriesPerDirectory).map
          FSEntry.name := by
  have hb : decide ((sortedFilteredEntries r options entries).length >
      options.maxEntriesPerDirectory) = true := decide_eq_true h
  have hnames := scanEntries_names recurse hrecN a r depth options
    ((sortedFilteredEntries r options entries).take options.maxEntriesPerDirectory)
    { st with stats := { st.stats with totalDirectories := st.stats.totalDirectories + 1 } }
  refine ⟨?_, ?_⟩
  · simp [scanBody, hb, StructureNode.truncatedOf]
  · refine ⟨(scanEntries recurse a r depth options
        ((sortedFilteredEntries r options entries).take options.maxEntriesPerDirectory)
        { st with stats := { st.stats with totalDirectories := st.stats.totalDirectories + 1 } }).1,
      ?_, ?_, ?_⟩
    · simp [scanBody, hb, StructureNode.childrenOf]
    · have hlen := congrArg List.length hnames
      simp only [List.length_map] at hlen
      rw [hlen, List.length_take]
      omega
    · exact hnames

/-- C1: in every completed walk, a directory node whose post-ignore filtered
entry list exceeds the per-directory cap is marked `truncated = true` and
keeps exactly `maxEntriesPerDirectory` children, namely (one node per entry,
names preserved) the first cap entries of the sorted, filtered list; every
directory node with listed entries arises as such a `scanDirectory` call, and
the hypothesis is about the pre-cap filtered count, which may exceed the
cap. -/
theorem c1_per_directory_cap (absolutePath name relativePath : String) (depth : Nat)
    (entries : List FSEntry) (options : ScanOptions) (st : ScanState)
    (h : (sortedFilteredEntries relativePath options entries).length >
      options.maxEntriesPerDirectory) :
    ((scanDirectory absolutePath name relativePath depth (.ok entries) options st).1).truncatedOf =
      some true ∧
    ∃ cs,
      ((scanDirectory absolutePath name relativePath depth (.ok entries) options st).1).childrenOf =
        some cs ∧
      cs.length = options.maxEntriesPerDirectory ∧
      cs.map StructureNode.name =
        ((sortedFilteredEntries relativePath options entries).take
          options.maxEntriesPerDirectory).map FSEntry.name := by
  unfold scanDirectory
  cases hE : options.maxDepth - depth with
  | zero =>
    exact scanBody_cap scanFallback (fun a2 n2 r2 d2 rr2 o2 st2 => rfl)
      absolutePath name relativePath depth entries options st h
  | succ k =>
    exact scanBody_cap (scanDirectoryF k) (scanDirectoryF_name k)
      absolutePath name relativePath depth entries options st h

/-- Closed witness for C1: two plain files against a cap of one. -/
theorem c1_per_directory_cap_witness :
    (sortedFilteredEntries "" ⟨3, 1, false, []⟩ [FSEntry.file "a.ts", FSEntry.file "b.ts"]).length >
        (⟨3, 1, false, []⟩ : ScanOptions).maxEntriesPerDirectory ∧
    (((scanDirectory "/r" "r" "" 0 (.ok [FSEntry.file "a.ts", FSEntry.file "b.ts"])
        ⟨3, 1, false, []⟩ ⟨⟨0, 0, []⟩, [], [], []⟩).1).truncatedOf = some true ∧
      ∃ cs,
        ((scanDirectory "/r" "r" "" 0 (.ok [FSEntry.file "a.ts", FSEntry.file "b.ts"])
            ⟨3, 1, false, []⟩ ⟨⟨0, 0, []⟩, [], [], []⟩).1).childrenOf = some cs ∧
        cs.length = (⟨3, 1, false, []⟩ : ScanOptions).maxEntriesPerDirectory ∧
        cs.map StructureNode.name =
          ((sortedFilteredEntries "" ⟨3, 1, false, []⟩
            [FSEntry.file "a.ts", FSEntry.file "b.ts"]).take
            (⟨3, 1, false, []⟩ : ScanOptions).maxEntriesPerDirectory).map FSEntry.name) :=
  ⟨by decide,
   c1_per_directory_cap "/r" "r" "" 0 [FSEntry.file "a.ts", FSEntry.file "b.ts"]
     ⟨3, 1, false, []⟩ ⟨⟨0, 0, []⟩, [], [], []⟩ (by decide)⟩

/-- C2: below any call at `depth < maxDepth`, every node at relative depth
`maxDepth - depth` has no child list, so no node at depth ≥ `maxDepth` in a
walk started at depth 0 carries children; and whenever `depth + 1 ≥ maxDepth`
a subdirectory entry is emitted as a truncated directory leaf with no
children whose shape and whole walk outcome are independent of the
subdirectory's contents (they are never visited). -/
theorem c2_depth_ceiling (absolutePath name relativePath : String) (depth : Nat)
    (readResult : Except String (List FSEntry)) (options : ScanOptions) (st : ScanState) :
    (depth < options.maxDepth →
      NoChildrenBelow (options.maxDepth - depth)
        ((scanDirectory absolutePath name relativePath depth readResult options st).1)) ∧
    (options.maxDepth ≤ depth + 1 →
      ∀ (fuel : Nat) (nm : String) (sub sub2 rest : List FSEntry),
        ((scanEntries (scanDirectoryF fuel) absolutePath relativePath depth options
            (FSEntry.dir nm sub :: rest) st).1).head? =
          some ⟨nm, childRelPath relativePath nm, NodeType.directory, none, some true, none⟩ ∧
        scanEntries (scanDirectoryF fuel) absolutePath relativePath depth options
            (FSEntry.dir nm sub :: rest) st =
          scanEntries (scanDirectoryF fuel) absolutePath relativePath depth options
            (FSEntry.dir nm sub2 :: rest) st) := by
  constructor
  · intro hdep
    unfold scanDirectory
    exact scanDirectoryF_depthBound _ _ _ _ _ _ _ _ hdep
  · intro hge fuel nm sub sub2 rest
    have hd : ¬ depth + 1 < options.maxDepth := by omega
    constructor
    · simp [scanEntries, FSEntry.isDirectory, FSEntry.name, hd]
    · simp [scanEntries, FSEntry.isDirectory, FSEntry.name, FSEntry.readResult, hd]

/-- Closed witness for C2: a depth-3 walk from depth 0, and the truncated leaf
emitted for a populated subdirectory seen at the depth ceiling. -/
theorem c2_depth_ceiling_witness :
    ((0 : Nat) < (3 : Nat) ∧
      NoChildrenBelow (3 - 0)
        ((scanDirectory "/r" "r" "" 0 (.ok []) ⟨3, 60, false, []⟩ ⟨⟨0, 0, []⟩, [], [], []⟩).1)) ∧
    ((3 : Nat) ≤ 2 + 1 ∧
      ((scanEntries (scanDirectoryF 1) "/r" "" 2 ⟨3, 60, false, []⟩
          [FSEntry.dir "components" [FSEntry.file "x.tsx"]] ⟨⟨0, 0, []⟩, [], [], []⟩).1).head? =
        some ⟨"components", childRelPath "" "components", NodeType.directory, none, some true,
          none⟩) :=
  ⟨⟨by decide,
     (c2_depth_ceiling "/r" "r" "" 0 (.ok []) ⟨3, 60, false, []⟩
       ⟨⟨0, 0, []⟩, [], [], []⟩).1 (by decide)⟩,
   ⟨by decide,
     ((c2_depth_ceiling "/r" "r2" "" 2 (.ok []) ⟨3, 60, false, []⟩
       ⟨⟨0, 0, []⟩, [], [], []⟩).2 (by decide) 1 "components" [FSEntry.file "x.tsx"] [] []).1⟩⟩

/-- C4: in every tree a walk returns, each directory node lists its children
in lexicographic order by entry name, at every depth (`∀ k`); the walk is a
pure function of the directory contents, so re-running it on unchanged
contents reproduces the identical ordering. -/
theorem c4_children_sorted (absolutePath name relativePath : String) (depth : Nat)
    (readResult : Except String (List FSEntry)) (options : ScanOptions) (st : ScanState)
    (k : Nat) :
    SortedTo k ((scanDirectory absolutePath name relativePath depth readResult options st).1) := by
  unfold scanDirectory
  exact scanDirectoryF_sorted _ _ _ _ _ _ _ _ _

/-- C5: for a walk from the fresh per-scan state, the histogram total plus the
number of symlink nodes equals `stats.totalFiles`: symlinks are counted as
files and typed `symlink` but get no histogram key, and are never recursed
into. -/
theorem c5_histogram_totals (absolutePath name relativePath : String) (depth : Nat)
    (readResult : Except String (List FSEntry)) (options : ScanOptions) :
    sumCounts (((scanDirectory absolutePath name relativePath depth readResult options
        ⟨⟨0, 0, []⟩, [], [], []⟩).2).stats.extensions) +
      countType .symlink
        ((scanDirectory absolutePath name relativePath depth readResult options
          ⟨⟨0, 0, []⟩, [], [], []⟩).1) =
    ((scanDirectory absolutePath name relativePath depth readResult options
        ⟨⟨0, 0, []⟩, [], [], []⟩).2).stats.totalFiles := by
  obtain ⟨h1, h2, h3⟩ := scanDirectoryF_stats (options.maxDepth - depth) absolutePath name
    relativePath depth readResult options ⟨⟨0, 0, []⟩, [], [], []⟩
  unfold scanDirectory
  have hz1 : (⟨⟨0, 0, []⟩, [], [], []⟩ : ScanState).stats.totalFiles = 0 := rfl
  have hz2 : sumCounts (⟨⟨0, 0, []⟩, [], [], []⟩ : ScanState).stats.extensions = 0 := rfl
  omega

/-- C9: for a walk from the fresh per-scan state, `stats.totalDirectories` is
exactly the number of directory-typed nodes of the returned tree (root,
depth-truncated leaves and unreadable leaves included) and
`stats.totalFiles` is exactly the number of file-typed plus symlink-typed
nodes; entries dropped by the ignore filter or the cap appear in neither. -/
theorem c9_stats_match_tree (absolutePath name relativePath : String) (depth : Nat)
    (readResult : Except String (List FSEntry)) (options : ScanOptions) :
    ((scanDirectory absolutePath name relativePath depth readResult options
        ⟨⟨0, 0, []⟩, [], [], []⟩).2).stats.totalDirectories =
      countType .directory
        ((scanDirectory absolutePath name relativePath depth readResult options
          ⟨⟨0, 0, []⟩, [], [], []⟩).1) ∧
    ((scanDirectory absolutePath name relativePath depth readResult options
        ⟨⟨0, 0, []⟩, [], [], []⟩).2).stats.totalFiles =
      countType .file
        ((scanDirectory absolutePath name relativePath depth readResult options
          ⟨⟨0, 0, []⟩, [], [], []⟩).1) +
      countType .symlink
        ((scanDirectory absolutePath name relativePath depth readResult options
          ⟨⟨0, 0, []⟩, [], [], []⟩).1) := by
  obtain ⟨h1, h2, h3⟩ := scanDirectoryF_stats (options.maxDepth - depth) absolutePath name
    relativePath depth readResult options ⟨⟨0, 0, []⟩, [], [], []⟩
  unfold scanDirectory
  exact ⟨by simpa using h1, by simpa using h2⟩

/-- C6: a failed subdirectory listing yields exactly a truncated directory
leaf plus one appended warning that names the failing absolute path; every
walk only ever appends to the warnings list (so the walk continues to
completion without dropping the warning); and a successful `analyseProject`
returns the same warnings list in the persisted artifact and in the
response. -/
theorem c6_unreadable_subdirectory :
    (∀ (absolutePath name relativePath : String) (depth : Nat) (msg : String)
        (options : ScanOptions) (st : ScanState),
      scanDirectory absolutePath name relativePath depth (.error msg) options st =
        (⟨name, if relativePath = "" then "." else relativePath, NodeType.directory, none,
            some true, none⟩,
         ⟨⟨st.stats.totalFiles, st.stats.totalDirectories + 1, st.stats.extensions⟩,
          st.warnings ++ [failedReadMessage absolutePath msg],
          st.componentDirectories, st.entityDirectories⟩) ∧
      strContains (failedReadMessage absolutePath msg) absolutePath = true) ∧
    (∀ (absolutePath name relativePath : String) (depth : Nat)
        (readResult : Except String (List FSEntry)) (options : ScanOptions) (st : ScanState),
      ∃ tail,
        ((scanDirectory absolutePath name relativePath depth readResult options st).2).warnings =
          st.warnings ++ tail) ∧
    (∀ (env : ScanEnv) (args : AnalyseArgs),
      (analyseProject env args).map (fun res => res.artifact.warnings) =
        (analyseProject env args).map (fun res => res.warnings)) := by
  refine ⟨?_, ?_, ?_⟩
  · intro a n r depth msg options st
    constructor
    · unfold scanDirectory
      cases options.maxDepth - depth <;> rfl
    · exact strContains_failedRead a msg
  · intro a n r depth rr options st
    unfold scanDirectory
    exact scanDirectoryF_warnings _ _ _ _ _ _ _ _
  · intro env args
    unfold analyseProject
    cases env.rootStat with
    | inaccessible msg => rfl
    | statOk isDir => cases isDir <;> rfl

/-- C7: a root whose `fs.stat` fails, or which is not a directory, makes
`analyseProject` fail immediately with a diagnostic containing the resolved
absolute root path; the model writes the artifact only on the success path,
so an `Except.error` outcome writes nothing. -/
theorem c7_fatal_root (env : ScanEnv) (args : AnalyseArgs) :
    (∀ msg, env.rootStat = RootStat.inaccessible msg →
      analyseProject env args =
        .error (rootNotAccessibleMessage (resolveAbsolutePath env.cwd args.rootDirectory) msg) ∧
      strContains (rootNotAccessibleMessage (resolveAbsolutePath env.cwd args.rootDirectory) msg)
        (resolveAbsolutePath env.cwd args.rootDirectory) = true) ∧
    (env.rootStat = RootStat.statOk false →
      analyseProject env args =
        .error (rootNotDirectoryMessage (resolveAbsolutePath env.cwd args.rootDirectory)) ∧
      strContains (rootNotDirectoryMessage (resolveAbsolutePath env.cwd args.rootDirectory))
        (resolveAbsolutePath env.cwd args.rootDirectory) = true) := by
  constructor
  · intro msg h
    unfold analyseProject
    rw [h]
    exact ⟨rfl, strContains_rootNotAccessible _ _⟩
  · intro h
    unfold analyseProject
    rw [h]
    exact ⟨rfl, strContains_rootNotDirectory _⟩

/-- Arguments matching the zod defaults of `projectOverviewInputSchema`:
depth 3, 60 entries per directory, hidden entries excluded. -/
def exampleArgs : AnalyseArgs :=
  ⟨"/work/app", ".orka", "project-structure.json", 3, 60, false, [], none, none, none⟩

/-- A root whose `fs.stat` throws (missing or inaccessible directory). -/
def missingRootEnv : ScanEnv :=
  ⟨"/work", .inaccessible "ENOENT: no such file or directory", .ok [], false,
   .error "unused", []⟩

/-- Closed witness for C7 at the missing-root environment. -/
theorem c7_fatal_root_witness :
    missingRootEnv.rootStat = RootStat.inaccessible "ENOENT: no such file or directory" ∧
    analyseProject missingRootEnv exampleArgs =
      .error (rootNotAccessibleMessage
        (resolveAbsolutePath missingRootEnv.cwd exampleArgs.rootDirectory)
        "ENOENT: no such file or directory") ∧
    strContains
      (rootNotAccessibleMessage
        (resolveAbsolutePath missingRootEnv.cwd exampleArgs.rootDirectory)
        "ENOENT: no such file or directory")
      (resolveAbsolutePath missingRootEnv.cwd exampleArgs.rootDirectory) = true :=
  ⟨rfl,
   ((c7_fatal_root missingRootEnv exampleArgs).1 "ENOENT: no such file or directory" rfl).1,
   ((c7_fatal_root missingRootEnv exampleArgs).1 "ENOENT: no such file or directory" rfl).2⟩

/-- The root contents of the C3 scenario: `src/` with the two TypeScript
files, `node_modules/` (ignored by the built-in set) and `package.json`. -/
def exampleRootEntries : List FSEntry :=
  [.dir "src" [.file "index.ts", .file "Button.component.tsx"],
   .dir "node_modules" [.dir "react" [.file "index.js"]],
   .file "package.json"]

/-- The scenario manifest: `{"dependencies": {"react": "18.0.0"}}`. -/
def examplePackageJson : PackageJsonData :=
  ⟨none, none, none, none, some [("react", "18.0.0")], none, none⟩

/-- The scenario environment: readable root with the entries above, a parsable
`package.json`, and exactly those three names present at the root. -/
def exampleEnv : ScanEnv :=
  ⟨"/work", .statOk true, .ok exampleRootEntries, true, .ok examplePackageJson,
   ["src", "node_modules", "package.json"]⟩

/-- C3 counterexample: the claimed `languages = [{TypeScript, 2}]` is false on
the scenario — the scanned `package.json` file itself contributes a
`{JSON, 1}` entry, so the derived list has two entries. -/
theorem c3_default_scenario_counterexample :
    (analyseProject exampleEnv exampleArgs).map (fun r => r.overview.languages) ≠
      Except.ok [⟨"TypeScript", 2⟩] := by
  intro h
  have h2 := congrArg (Except.map (fun l : List LanguageCount => l.length)) h
  have h4 : Except.map (fun l : List LanguageCount => l.length)
      ((analyseProject exampleEnv exampleArgs).map (fun r => r.overview.languages)) =
      Except.ok 2 := rfl
  rw [h4] at h2
  have h5 : Except.map (fun l : List LanguageCount => l.length)
      (Except.ok [(⟨"TypeScript", 2⟩ : LanguageCount)] : Except String (List LanguageCount)) =
      Except.ok 1 := rfl
  rw [h5] at h2
  injection h2 with h6
  omega

/-- C3 (amended): on the default-option scenario the languages come out as
`[{TypeScript, 2}, {JSON, 1}]` (the root `package.json` is scanned as a file
and counted as JSON); the tech stack contains the React and Node.js labels,
`componentDirectories` is empty (the `.component.tsx` file name does not
count — only directory names are classified), `notableFiles` contains
`package.json`, and there are zero warnings. -/
theorem c3_default_scenario :
    (analyseProject exampleEnv exampleArgs).map (fun r =>
      (r.overview.languages, r.overview.techStack.contains "React",
       r.overview.techStack.contains "Node.js", r.overview.componentDirectories,
       r.overview.notableFiles.contains "package.json", r.warnings)) =
    Except.ok ([⟨"TypeScript", 2⟩, ⟨"JSON", 1⟩], true, true, [], true, []) := rfl

/-- C8: a project-base document missing the `rootDirectory` field fails
validation whatever else it holds; a document with the required field whose
tree has a directory node carrying an empty `children` array validates
(empty directory). -/
theorem c8_artifact_validation :
    (∀ (fuel : Nat) (fields : List (String × Json)),
      lookupKey fields "rootDirectory" = none →
      validateProjectBase fuel (.obj fields) = false) ∧
    (∀ (root nodeName nodePath : String),
      validateProjectBase 2
        (.obj [("rootDirectory", .str root),
               ("tree", .obj [("name", .str nodeName), ("path", .str nodePath),
                              ("type", .str "directory"), ("children", .arr [])])]) = true) := by
  constructor
  · intro fuel fields hmiss
    simp [validateProjectBase, checkRequired, hmiss]
  · intro root nodeName nodePath
    rfl

/-- Closed witness for C8: the empty document fails, a two-field document with
an empty-children directory tree passes. -/
theorem c8_artifact_validation_witness :
    (lookupKey ([] : List (String × Json)) "rootDirectory" = none ∧
      validateProjectBase 1 (.obj []) = false) ∧
    validateProjectBase 2
      (.obj [("rootDirectory", .str "/repo"),
             ("tree", .obj [("name", .str "repo"), ("path", .str "."),
                            ("type", .str "directory"), ("children", .arr [])])]) = true :=
  ⟨⟨rfl, c8_artifact_validation.1 1 [] rfl⟩,
   c8_artifact_validation.2 "/repo" "repo" "."⟩

/-- C10: an absolute `fileName` is returned unchanged by
`resolveProjectBasePath`, and `loadProjectBase` then reads at `fileName`
itself — the `baseDirectory` argument cannot influence the outcome. -/
theorem c10_absolute_filename (files : List (String × Option Json)) (fuel : Nat)
    (baseDirectory baseDirectory2 fileName : String)
    (h : pathIsAbsolute fileName = true) :
    resolveProjectBasePath baseDirectory fileName = fileName ∧
    loadProjectBase files fuel baseDirectory fileName =
      loadProjectBase files fuel baseDirectory2 fileName := by
  have h1 : ∀ b, resolveProjectBasePath b fileName = fileName := fun b => by
    simp [resolveProjectBasePath, h]
  refine ⟨h1 _, ?_⟩
  unfold loadProjectBase
  rw [h1 baseDirectory, h1 baseDirectory2]

/-- Closed witness for C10 at a concrete absolute artifact path. -/
theorem c10_absolute_filename_witness :
    pathIsAbsolute "/tmp/base.json" = true ∧
    resolveProjectBasePath "/work/.orka" "/tmp/base.json" = "/tmp/base.json" ∧
    loadProjectBase [] 1 "/work/.orka" "/tmp/base.json" =
      loadProjectBase [] 1 "/other" "/tmp/base.json" :=
  ⟨by decide,
   (c10_absolute_filename [] 1 "/work/.orka" "/other" "/tmp/base.json" (by decide)).1,
   (c10_absolute_filename [] 1 "/work/.orka" "/other" "/tmp/base.json" (by decide)).2⟩
